import Mathlib

/-!
# Smart table-tennis bat — windowing-and-decision pipeline

Shallow embedding of the Arduino sketch (the classification sketch of the
repository): the circular IMU sample buffer, the hop-based re-inference
scheduler, the plausibility/confidence decision gate, the stroke counters
and the presentation state machine driven from `loop()`.

Conventions of the embedding:
* scalar sensor channels and classifier confidences are rationals (`ℚ`),
  mirroring the float arithmetic of the source exactly on the rational
  inputs used here;
* `uint16_t` / `uint8_t` / `uint32_t` counters are `Nat` with an explicit
  `% 2^w` wherever the source can overflow (`sampleCounter++`, the stroke
  counters, `encIndex[idx]++`); `uint32_t` subtraction on `millis()`
  timestamps is `usub32`;
* the external sensor is an `Option` input per tick
  (`IMU.accelerationAvailable()` / `IMU.gyroscopeAvailable()`);
* the external Edge Impulse classifier is an oracle function from the
  flattened frame to an optional vector of per-label scores; `none` models
  `numpy::signal_from_buffer` or `run_classifier` returning an error;
* the display is write-only: the embedding records the draw calls the
  source makes (`drawMainScreen`, `drawFlash`, `drawIdle`) as a list of
  `DrawCmd` outputs.
-/

/-- Modelled from the spec: `EI_CLASSIFIER_RAW_SAMPLES_PER_FRAME`, the
number of channels per sample, comes from the generated Edge Impulse
header that is not part of the repository; the spec fixes 6 channels
(3 acceleration + 3 angular rate). -/
def AXIS_COUNT : Nat := 6

/-- Modelled from the spec: `WINDOW_SAMPLES = EI_CLASSIFIER_DSP_INPUT_FRAME_SIZE / AXIS_COUNT`
comes from the generated Edge Impulse header; the spec's concrete scenario
fixes the window length W = 25 samples. -/
def WINDOW_SAMPLES : Nat := 25

/-- `WINDOW_SIZE = EI_CLASSIFIER_DSP_INPUT_FRAME_SIZE`, the flattened frame
length `WINDOW_SAMPLES * AXIS_COUNT`. -/
def WINDOW_SIZE : Nat := WINDOW_SAMPLES * AXIS_COUNT

/-- `HOP_SAMPLES = (WINDOW_SAMPLES + 1) / 2`: about half a window. -/
def HOP_SAMPLES : Nat := (WINDOW_SAMPLES + 1) / 2

/-- Modelled from the spec: `EI_CLASSIFIER_LABEL_COUNT` comes from the
generated Edge Impulse header; the source handles five stroke categories
(cases 0..4) plus the idle label, so the label count is 6. -/
def LABEL_COUNT : Nat := 6

/-- `IDLE_LABEL_INDEX = EI_CLASSIFIER_LABEL_COUNT - 1`. -/
def IDLE_LABEL_INDEX : Nat := LABEL_COUNT - 1

/-- `CONF_THRESH 0.50f`. -/
def CONF_THRESH : ℚ := 1/2

/-- `ACCEL_THRESH_G 2.0f`. -/
def ACCEL_THRESH_G : ℚ := 2

/-- `CONVERT_G_TO_MS2 9.80665f`. -/
def CONVERT_G_TO_MS2 : ℚ := 980665/100000

/-- `SAMPLE_INTERVAL_MS 20`. -/
def SAMPLE_INTERVAL_MS : Nat := 20

/-- `FLASH_DURATION_MS 3000`. -/
def FLASH_DURATION_MS : Nat := 3000

/-- `IDLE_TIMEOUT_MS 10000`. -/
def IDLE_TIMEOUT_MS : Nat := 10000

/-- `ANIM_INTERVAL_MS 200`. -/
def ANIM_INTERVAL_MS : Nat := 200

/-- `uint32_t` subtraction `a - b` as the source performs it on `millis()`
timestamps: wraparound modulo `2^32`. For `b ≤ a < 2^32` this is `a - b`. -/
def usub32 (a b : Nat) : Nat := (a % 2^32 + 2^32 - b % 2^32) % 2^32

/-- `enum State { STATE_OPENING, STATE_MAIN, STATE_FLASH, STATE_IDLE }`. -/
inductive State where
  | STATE_OPENING
  | STATE_MAIN
  | STATE_FLASH
  | STATE_IDLE
deriving DecidableEq, Repr

/-- The global mutable variables of the sketch that the pipeline reads or
writes. A buffer row is a list of `AXIS_COUNT` channel values. -/
structure PipelineState where
  /-- `static BufferRow imuBuffer[WINDOW_SAMPLES]` -/
  imuBuffer : List (List ℚ)
  /-- `static uint16_t bufIndex` -/
  bufIndex : Nat
  /-- `static uint16_t sampleCount` — counts until window full -/
  sampleCount : Nat
  /-- `static uint16_t sampleCounter` — counts since last inference -/
  sampleCounter : Nat
  countBHdrive : Nat
  countBHsmash : Nat
  countFHdrive : Nat
  countFHloop : Nat
  countFHsmash : Nat
  totalStrokes : Nat
  lastIMUread : Nat
  lastDisplay : Nat
  lastIdleAnim : Nat
  lastStrokeTime : Nat
  flashStart : Nat
  /-- `uint8_t encIndex[5]` — rotating message cursor per category -/
  encIndex : List Nat
  currentState : State
deriving DecidableEq, Repr

/-- `uint8_t encCount[5] = {2,2,2,2,2}` — message pool size per category. -/
def encCountL : List Nat := [2, 2, 2, 2, 2]

/-- `typedef struct { uint8_t index; float confidence; } InferenceResult;` -/
structure InferenceResult where
  index : Nat
  confidence : ℚ
deriving DecidableEq, Repr

/-- The external Edge Impulse classifier as an oracle: takes the flattened
frame, yields the `EI_CLASSIFIER_LABEL_COUNT` per-label scores, or `none`
when `signal_from_buffer` / `run_classifier` reports an error. -/
def Oracle : Type := List ℚ → Option (List ℚ)

/-- Draw calls emitted to the SSD1306 display: `drawMainScreen()`,
`drawFlash(idx)` with the selected message slot, `drawIdle()`. -/
inductive DrawCmd where
  | main
  | flash (idx msgSlot : Nat)
  | idle
deriving DecidableEq, Repr

/-- `bool accelAboveThreshold()`: squares the threshold once, then scans
every row of `imuBuffer` for a squared acceleration magnitude strictly
above it. -/
def accelAboveThreshold (s : PipelineState) : Bool :=
  let thr : ℚ := ACCEL_THRESH_G * CONVERT_G_TO_MS2
  let thr2 : ℚ := thr * thr
  (List.range WINDOW_SAMPLES).any fun i =>
    let r := s.imuBuffer.getD i []
    let ax := r.getD 0 0
    let ay := r.getD 1 0
    let az := r.getD 2 0
    decide (ax * ax + ay * ay + az * az > thr2)

/-- `void readIMU()`: channel values default to 0 when the sensor has no
reading (`IMU.accelerationAvailable()` / `IMU.gyroscopeAvailable()` false);
the row at `bufIndex` is overwritten with the g-scaled acceleration and the
raw gyroscope values, the cursor advances modulo `WINDOW_SAMPLES`,
`sampleCount` saturates at `WINDOW_SAMPLES`, `sampleCounter` increments
(`uint16_t`). -/
def readIMU (accel gyro : Option (ℚ × ℚ × ℚ)) (s : PipelineState) : PipelineState :=
  let a := accel.getD (0, 0, 0)
  let g := gyro.getD (0, 0, 0)
  let row : List ℚ :=
    [a.1 * CONVERT_G_TO_MS2, a.2.1 * CONVERT_G_TO_MS2, a.2.2 * CONVERT_G_TO_MS2,
     g.1, g.2.1, g.2.2]
  { s with
    imuBuffer := s.imuBuffer.set s.bufIndex row
    bufIndex := (s.bufIndex + 1) % WINDOW_SAMPLES
    sampleCount := if s.sampleCount < WINDOW_SAMPLES then s.sampleCount + 1 else s.sampleCount
    sampleCounter := (s.sampleCounter + 1) % 2^16 }

/-- The frame copy loop of `runInference`:
`sig[i*AXIS_COUNT+j] = imuBuffer[(bufIndex+i)%WINDOW_SAMPLES][j]`,
oldest-first starting at the write cursor. -/
def buildSignal (s : PipelineState) : List ℚ :=
  ((List.range WINDOW_SAMPLES).map fun i =>
    (List.range AXIS_COUNT).map fun j =>
      (s.imuBuffer.getD ((s.bufIndex + i) % WINDOW_SAMPLES) []).getD j 0).flatten

/-- The argmax loop of `runInference`: `best = 0`, then for
`i = 1 .. EI_CLASSIFIER_LABEL_COUNT-1` take `i` whenever
`res.classification[i].value > res.classification[best].value`. -/
def bestIndex (vals : List ℚ) : Nat :=
  (List.range' 1 (LABEL_COUNT - 1)).foldl
    (fun best i => if vals.getD i 0 > vals.getD best 0 then i else best) 0

/-- `InferenceResult runInference()`: materializes the frame, runs the
classifier, returns `{0, 0.0f}` on a `signal_from_buffer` or
`run_classifier` error, otherwise the argmax label and its confidence. -/
def runInference (oracle : Oracle) (s : PipelineState) : InferenceResult :=
  match oracle (buildSignal s) with
  | none => ⟨0, 0⟩
  | some vals =>
      let best := bestIndex vals
      ⟨best, vals.getD best 0⟩

/-- The accept condition of the decision gate exactly as the source tests it:
`inf.confidence > CONF_THRESH && inf.index < IDLE_LABEL_INDEX && accelAboveThreshold()`. -/
def acceptB (inf : InferenceResult) (plaus : Bool) : Bool :=
  decide (inf.confidence > CONF_THRESH) && decide (inf.index < IDLE_LABEL_INDEX) && plaus

/-- The decision gate as the spec words it: confidence strictly above the
threshold, label index different from the idle label index, plausibility
gate passed. -/
def AcceptCond (inf : InferenceResult) (plaus : Bool) : Prop :=
  inf.confidence > CONF_THRESH ∧ inf.index ≠ IDLE_LABEL_INDEX ∧ plaus = true

instance (inf : InferenceResult) (plaus : Bool) : Decidable (AcceptCond inf plaus) := by
  unfold AcceptCond; infer_instance

/-- `sampleCounter -= HOP_SAMPLES` (executed only under the guard
`sampleCounter >= HOP_SAMPLES`, where `uint16_t` and `Nat` subtraction
agree). -/
def consumeHop (s : PipelineState) : PipelineState :=
  { s with sampleCounter := s.sampleCounter - HOP_SAMPLES }

/-- The acceptance `switch(inf.index)` plus `totalStrokes++`: bump the
per-category counter for indices 0..4 and the total (all `uint16_t`). -/
def bumpCounters (s : PipelineState) (idx : Nat) : PipelineState :=
  let s1 :=
    match idx with
    | 0 => { s with countBHdrive := (s.countBHdrive + 1) % 2^16 }
    | 1 => { s with countBHsmash := (s.countBHsmash + 1) % 2^16 }
    | 2 => { s with countFHdrive := (s.countFHdrive + 1) % 2^16 }
    | 3 => { s with countFHloop := (s.countFHloop + 1) % 2^16 }
    | 4 => { s with countFHsmash := (s.countFHsmash + 1) % 2^16 }
    | _ => s
  { s1 with totalStrokes := (s1.totalStrokes + 1) % 2^16 }

/-- The per-category counter the acceptance switch maintains for a label
index (0..4 are the five stroke categories). -/
def categoryCount (s : PipelineState) (idx : Nat) : Nat :=
  match idx with
  | 0 => s.countBHdrive
  | 1 => s.countBHsmash
  | 2 => s.countFHdrive
  | 3 => s.countFHloop
  | 4 => s.countFHsmash
  | _ => 0

/-- `void drawFlash(uint8_t idx)`: selects message slot
`encIndex[idx] % encCount[idx]`, post-increments the `uint8_t` cursor, and
emits the flash draw call. -/
def drawFlash (s : PipelineState) (idx : Nat) : PipelineState × DrawCmd :=
  let e := s.encIndex.getD idx 0
  let m := e % encCountL.getD idx 2
  ({ s with encIndex := s.encIndex.set idx ((e + 1) % 2^8) }, DrawCmd.flash idx m)

/-- The classification block shared by the `STATE_MAIN`, `STATE_FLASH` and
`STATE_IDLE` cases of `loop()`: under the guard
`sampleCount >= WINDOW_SAMPLES && sampleCounter >= HOP_SAMPLES` it consumes
one hop, runs the classifier, and on an accepted result bumps the counters,
sets `flashStart = now`, draws the flash screen and (in the `STATE_MAIN`
and `STATE_IDLE` cases, where `enterFlash` is true) sets
`currentState = STATE_FLASH`; the returned flag records whether
`runInference` was invoked. -/
def inferBlock (enterFlash : Bool) (oracle : Oracle) (now : Nat) (s : PipelineState) :
    PipelineState × List DrawCmd × Bool :=
  if WINDOW_SAMPLES ≤ s.sampleCount ∧ HOP_SAMPLES ≤ s.sampleCounter then
    let s1 := consumeHop s
    let inf := runInference oracle s1
    if acceptB inf (accelAboveThreshold s1) then
      let s2 := bumpCounters s1 inf.index
      let s3 := { s2 with flashStart := now }
      let sd := drawFlash s3 inf.index
      ({ sd.1 with currentState := if enterFlash then State.STATE_FLASH else sd.1.currentState },
       [sd.2], true)
    else (s1, [], true)
  else (s, [], false)

/-- The sampling step at the head of `loop()`:
`if(now-lastIMUread>=SAMPLE_INTERVAL_MS){ lastIMUread=now; readIMU(); }`. -/
def readPhase (accel gyro : Option (ℚ × ℚ × ℚ)) (now : Nat) (s : PipelineState) :
    PipelineState :=
  if SAMPLE_INTERVAL_MS ≤ usub32 now s.lastIMUread then
    readIMU accel gyro { s with lastIMUread := now }
  else s

/-- The `case STATE_MAIN` body: classification block, then the idle-timeout
check on `lastStrokeTime`, then the periodic `drawMainScreen` redraw. -/
def mainCase (oracle : Oracle) (now : Nat) (s : PipelineState) :
    PipelineState × List DrawCmd × Bool :=
  let r := inferBlock true oracle now s
  let s2 :=
    if IDLE_TIMEOUT_MS ≤ usub32 now r.1.lastStrokeTime then
      { r.1 with currentState := State.STATE_IDLE, lastIdleAnim := now }
    else r.1
  if ANIM_INTERVAL_MS ≤ usub32 now s2.lastDisplay then
    ({ s2 with lastDisplay := now }, r.2.1 ++ [DrawCmd.main], r.2.2)
  else (s2, r.2.1, r.2.2)

/-- The `case STATE_FLASH` body: classification block (acceptance restarts
the flash without a state write), then the flash-timeout check that returns
to `STATE_MAIN`, redrawing the counters and resetting `lastStrokeTime`. -/
def flashCase (oracle : Oracle) (now : Nat) (s : PipelineState) :
    PipelineState × List DrawCmd × Bool :=
  let r := inferBlock false oracle now s
  if FLASH_DURATION_MS ≤ usub32 now r.1.flashStart then
    ({ r.1 with lastDisplay := now, lastStrokeTime := now, currentState := State.STATE_MAIN },
     r.2.1 ++ [DrawCmd.main], r.2.2)
  else (r.1, r.2.1, r.2.2)

/-- The `case STATE_IDLE` body: periodic `drawIdle` animation, then the
classification block (acceptance enters `STATE_FLASH`). -/
def idleCase (oracle : Oracle) (now : Nat) (s : PipelineState) :
    PipelineState × List DrawCmd × Bool :=
  let s1 :=
    if ANIM_INTERVAL_MS ≤ usub32 now s.lastIdleAnim then
      { s with lastIdleAnim := now }
    else s
  let d1 : List DrawCmd :=
    if ANIM_INTERVAL_MS ≤ usub32 now s.lastIdleAnim then [DrawCmd.idle] else []
  let r := inferBlock true oracle now s1
  (r.1, d1 ++ r.2.1, r.2.2)

/-- One iteration of `void loop()`: the sampling step, then the `switch` on
`currentState` (the `default` case folds `STATE_OPENING` back to
`STATE_MAIN`). Returns the new state, the draw calls of the iteration, and
whether `runInference` was invoked. -/
def loopStep (oracle : Oracle) (accel gyro : Option (ℚ × ℚ × ℚ)) (now : Nat)
    (s : PipelineState) : PipelineState × List DrawCmd × Bool :=
  let s0 := readPhase accel gyro now s
  match s0.currentState with
  | State.STATE_MAIN => mainCase oracle now s0
  | State.STATE_FLASH => flashCase oracle now s0
  | State.STATE_IDLE => idleCase oracle now s0
  | State.STATE_OPENING => ({ s0 with currentState := State.STATE_MAIN }, [], false)

/-- The pipeline state right after `setup()` at time `t0`: zero-initialized
statics, timers latched to `millis()`, `currentState = STATE_MAIN`. -/
def initState (t0 : Nat) : PipelineState where
  imuBuffer := List.replicate WINDOW_SAMPLES (List.replicate AXIS_COUNT 0)
  bufIndex := 0
  sampleCount := 0
  sampleCounter := 0
  countBHdrive := 0
  countBHsmash := 0
  countFHdrive := 0
  countFHloop := 0
  countFHsmash := 0
  totalStrokes := 0
  lastIMUread := t0
  lastDisplay := t0
  lastIdleAnim := t0
  lastStrokeTime := t0
  flashStart := 0
  encIndex := List.replicate 5 0
  currentState := State.STATE_MAIN

/-- Run `n` loop iterations spaced one sample interval apart starting just
after time `base`, with a fixed sensor reading and oracle; returns the
final state and how many times `runInference` was invoked. -/
def runTicks (oracle : Oracle) (accel gyro : Option (ℚ × ℚ × ℚ)) (base : Nat) :
    Nat → PipelineState → PipelineState × Nat
  | 0, s => (s, 0)
  | n + 1, s =>
      let r := loopStep oracle accel gyro (base + SAMPLE_INTERVAL_MS) s
      let rest := runTicks oracle accel gyro (base + SAMPLE_INTERVAL_MS) n r.1
      (rest.1, (if r.2.2 then 1 else 0) + rest.2)

/-! ## Basic lemmas about the embedded operations -/

lemma usub32_self (a : Nat) : usub32 a a = 0 := by
  unfold usub32
  have h : a % 2^32 + 2^32 - a % 2^32 = 2^32 := by omega
  simp [h]

lemma bestIndex_le (vals : List ℚ) : bestIndex vals ≤ IDLE_LABEL_INDEX := by
  have h : ∀ (l : List Nat) (b : Nat), b ≤ IDLE_LABEL_INDEX →
      (∀ x ∈ l, x ≤ IDLE_LABEL_INDEX) →
      l.foldl (fun best i => if vals.getD i 0 > vals.getD best 0 then i else best) b
        ≤ IDLE_LABEL_INDEX := by
    intro l
    induction l with
    | nil => intro b hb _; simpa using hb
    | cons x xs ih =>
        intro b hb hx
        simp only [List.foldl]
        apply ih
        · split
          · exact hx x (by simp)
          · exact hb
        · intro y hy; exact hx y (by simp [hy])
  apply h
  · simp [IDLE_LABEL_INDEX, LABEL_COUNT]
  · intro x hx
    have hm := List.mem_range'_1.mp hx
    simp only [IDLE_LABEL_INDEX, LABEL_COUNT] at hm ⊢
    omega

lemma runInference_index_le (oracle : Oracle) (s : PipelineState) :
    (runInference oracle s).index ≤ IDLE_LABEL_INDEX := by
  unfold runInference
  cases h : oracle (buildSignal s) with
  | none => simp [IDLE_LABEL_INDEX, LABEL_COUNT]
  | some vals => simpa using bestIndex_le vals

lemma acceptB_iff_acceptCond (inf : InferenceResult) (plaus : Bool)
    (h : inf.index ≤ IDLE_LABEL_INDEX) :
    acceptB inf plaus = true ↔ AcceptCond inf plaus := by
  unfold acceptB AcceptCond
  simp only [Bool.and_eq_true, decide_eq_true_iff]
  constructor
  · rintro ⟨⟨h1, h2⟩, h3⟩
    exact ⟨h1, by omega, h3⟩
  · rintro ⟨h1, h2, h3⟩
    exact ⟨⟨h1, by omega⟩, h3⟩

lemma bumpCounters_imuBuffer (s : PipelineState) (idx : Nat) :
    (bumpCounters s idx).imuBuffer = s.imuBuffer := by
  rcases idx with _|_|_|_|_|n <;> rfl

lemma bumpCounters_bufIndex (s : PipelineState) (idx : Nat) :
    (bumpCounters s idx).bufIndex = s.bufIndex := by
  rcases idx with _|_|_|_|_|n <;> rfl

lemma bumpCounters_sampleCount (s : PipelineState) (idx : Nat) :
    (bumpCounters s idx).sampleCount = s.sampleCount := by
  rcases idx with _|_|_|_|_|n <;> rfl

lemma bumpCounters_sampleCounter (s : PipelineState) (idx : Nat) :
    (bumpCounters s idx).sampleCounter = s.sampleCounter := by
  rcases idx with _|_|_|_|_|n <;> rfl

lemma bumpCounters_lastStrokeTime (s : PipelineState) (idx : Nat) :
    (bumpCounters s idx).lastStrokeTime = s.lastStrokeTime := by
  rcases idx with _|_|_|_|_|n <;> rfl

lemma bumpCounters_lastDisplay (s : PipelineState) (idx : Nat) :
    (bumpCounters s idx).lastDisplay = s.lastDisplay := by
  rcases idx with _|_|_|_|_|n <;> rfl

lemma bumpCounters_lastIdleAnim (s : PipelineState) (idx : Nat) :
    (bumpCounters s idx).lastIdleAnim = s.lastIdleAnim := by
  rcases idx with _|_|_|_|_|n <;> rfl

lemma bumpCounters_lastIMUread (s : PipelineState) (idx : Nat) :
    (bumpCounters s idx).lastIMUread = s.lastIMUread := by
  rcases idx with _|_|_|_|_|n <;> rfl

lemma bumpCounters_currentState (s : PipelineState) (idx : Nat) :
    (bumpCounters s idx).currentState = s.currentState := by
  rcases idx with _|_|_|_|_|n <;> rfl

lemma bumpCounters_encIndex (s : PipelineState) (idx : Nat) :
    (bumpCounters s idx).encIndex = s.encIndex := by
  rcases idx with _|_|_|_|_|n <;> rfl

lemma bumpCounters_flashStart (s : PipelineState) (idx : Nat) :
    (bumpCounters s idx).flashStart = s.flashStart := by
  rcases idx with _|_|_|_|_|n <;> rfl

lemma bumpCounters_totalStrokes (s : PipelineState) (idx : Nat) :
    (bumpCounters s idx).totalStrokes = (s.totalStrokes + 1) % 2^16 := by
  rcases idx with _|_|_|_|_|n <;> rfl

lemma bumpCounters_categoryCount_self (s : PipelineState) (idx : Nat) (h : idx < 5) :
    categoryCount (bumpCounters s idx) idx = (categoryCount s idx + 1) % 2^16 := by
  interval_cases idx <;> rfl

lemma categoryCount_consumeHop (s : PipelineState) (k : Nat) :
    categoryCount (consumeHop s) k = categoryCount s k := by
  rcases k with _|_|_|_|_|k <;> rfl

/-! ## Characterization of the classification block -/

lemma inferBlock_not_triggered (b : Bool) (oracle : Oracle) (now : Nat) (s : PipelineState)
    (h : ¬(WINDOW_SAMPLES ≤ s.sampleCount ∧ HOP_SAMPLES ≤ s.sampleCounter)) :
    inferBlock b oracle now s = (s, [], false) := by
  unfold inferBlock
  rw [if_neg h]

lemma inferBlock_invoked_iff (b : Bool) (oracle : Oracle) (now : Nat) (s : PipelineState) :
    (inferBlock b oracle now s).2.2 = true ↔
      WINDOW_SAMPLES ≤ s.sampleCount ∧ HOP_SAMPLES ≤ s.sampleCounter := by
  by_cases h : WINDOW_SAMPLES ≤ s.sampleCount ∧ HOP_SAMPLES ≤ s.sampleCounter
  · simp only [inferBlock, if_pos h]
    constructor
    · intro _; exact h
    · intro _
      split <;> rfl
  · rw [inferBlock_not_triggered b oracle now s h]
    simpa using h

lemma inferBlock_reject (b : Bool) (oracle : Oracle) (now : Nat) (s : PipelineState)
    (htrig : WINDOW_SAMPLES ≤ s.sampleCount ∧ HOP_SAMPLES ≤ s.sampleCounter)
    (hrej : ¬ AcceptCond (runInference oracle (consumeHop s))
        (accelAboveThreshold (consumeHop s))) :
    inferBlock b oracle now s = (consumeHop s, [], true) := by
  have hle := runInference_index_le oracle (consumeHop s)
  have hb : acceptB (runInference oracle (consumeHop s)) (accelAboveThreshold (consumeHop s))
      = false := by
    rcases hB : acceptB (runInference oracle (consumeHop s))
        (accelAboveThreshold (consumeHop s)) with _ | _
    · rfl
    · exact absurd ((acceptB_iff_acceptCond _ _ hle).mp hB) hrej
  unfold inferBlock
  rw [if_pos htrig]
  simp only [hb]
  rfl

lemma inferBlock_accept (b : Bool) (oracle : Oracle) (now : Nat) (s : PipelineState)
    (htrig : WINDOW_SAMPLES ≤ s.sampleCount ∧ HOP_SAMPLES ≤ s.sampleCounter)
    (hacc : AcceptCond (runInference oracle (consumeHop s))
        (accelAboveThreshold (consumeHop s))) :
    (inferBlock b oracle now s).1.totalStrokes = (s.totalStrokes + 1) % 2^16 ∧
    categoryCount (inferBlock b oracle now s).1 (runInference oracle (consumeHop s)).index
      = (categoryCount s (runInference oracle (consumeHop s)).index + 1) % 2^16 ∧
    (inferBlock b oracle now s).1.currentState
      = (if b then State.STATE_FLASH else s.currentState) ∧
    (inferBlock b oracle now s).1.flashStart = now ∧
    (inferBlock b oracle now s).1.sampleCounter = s.sampleCounter - HOP_SAMPLES ∧
    (inferBlock b oracle now s).1.lastStrokeTime = s.lastStrokeTime ∧
    (inferBlock b oracle now s).1.sampleCount = s.sampleCount ∧
    (inferBlock b oracle now s).1.imuBuffer = s.imuBuffer ∧
    (inferBlock b oracle now s).1.bufIndex = s.bufIndex ∧
    (inferBlock b oracle now s).2.1
      = [DrawCmd.flash (runInference oracle (consumeHop s)).index
          (s.encIndex.getD (runInference oracle (consumeHop s)).index 0
            % encCountL.getD (runInference oracle (consumeHop s)).index 2)] ∧
    (inferBlock b oracle now s).2.2 = true := by
  have hle := runInference_index_le oracle (consumeHop s)
  have hlt : (runInference oracle (consumeHop s)).index < 5 := by
    have h5 : IDLE_LABEL_INDEX = 5 := rfl
    have hne := hacc.2.1
    omega
  have hb : acceptB (runInference oracle (consumeHop s)) (accelAboveThreshold (consumeHop s))
      = true := (acceptB_iff_acceptCond _ _ hle).mpr hacc
  unfold inferBlock
  rw [if_pos htrig]
  simp only [hb, if_true]
  refine ⟨?_, ?_, ?_, ?_, ?_, ?_, ?_, ?_, ?_, ?_, by trivial⟩
  · simp [drawFlash, bumpCounters_totalStrokes, consumeHop]
  · set n := (runInference oracle (consumeHop s)).index with hn
    interval_cases n <;> simp [drawFlash, bumpCounters, categoryCount, consumeHop]
  · cases b <;> simp [drawFlash, bumpCounters_currentState, consumeHop]
  · simp [drawFlash]
  · simp [drawFlash, bumpCounters_sampleCounter, consumeHop]
  · simp [drawFlash, bumpCounters_lastStrokeTime, consumeHop]
  · simp [drawFlash, bumpCounters_sampleCount, consumeHop]
  · simp [drawFlash, bumpCounters_imuBuffer, consumeHop]
  · simp [drawFlash, bumpCounters_bufIndex, consumeHop]
  · simp [drawFlash, bumpCounters_encIndex, consumeHop]

lemma inferBlock_sampleCounter_triggered (b : Bool) (oracle : Oracle) (now : Nat)
    (s : PipelineState)
    (htrig : WINDOW_SAMPLES ≤ s.sampleCount ∧ HOP_SAMPLES ≤ s.sampleCounter) :
    (inferBlock b oracle now s).1.sampleCounter = s.sampleCounter - HOP_SAMPLES := by
  by_cases hacc : AcceptCond (runInference oracle (consumeHop s))
      (accelAboveThreshold (consumeHop s))
  · exact (inferBlock_accept b oracle now s htrig hacc).2.2.2.2.1
  · rw [inferBlock_reject b oracle now s htrig hacc]
    rfl

lemma readPhase_pres (accel gyro : Option (ℚ × ℚ × ℚ)) (now : Nat) (s : PipelineState) :
    (readPhase accel gyro now s).currentState = s.currentState ∧
    (readPhase accel gyro now s).totalStrokes = s.totalStrokes ∧
    (readPhase accel gyro now s).lastStrokeTime = s.lastStrokeTime ∧
    (readPhase accel gyro now s).flashStart = s.flashStart ∧
    (readPhase accel gyro now s).lastDisplay = s.lastDisplay ∧
    (readPhase accel gyro now s).lastIdleAnim = s.lastIdleAnim ∧
    (readPhase accel gyro now s).encIndex = s.encIndex ∧
    (∀ k, categoryCount (readPhase accel gyro now s) k = categoryCount s k) := by
  unfold readPhase readIMU
  split
  · refine ⟨rfl, rfl, rfl, rfl, rfl, rfl, rfl, ?_⟩
    intro k; rcases k with _|_|_|_|_|k <;> rfl
  · exact ⟨rfl, rfl, rfl, rfl, rfl, rfl, rfl, fun k => rfl⟩

lemma mainCase_invoked (oracle : Oracle) (now : Nat) (s : PipelineState) :
    (mainCase oracle now s).2.2 = (inferBlock true oracle now s).2.2 := by
  simp only [mainCase]
  split
  · split <;> rfl
  · split <;> rfl

lemma mainCase_sampleCounter (oracle : Oracle) (now : Nat) (s : PipelineState) :
    (mainCase oracle now s).1.sampleCounter = (inferBlock true oracle now s).1.sampleCounter := by
  simp only [mainCase]
  split
  · split <;> rfl
  · split <;> rfl

lemma flashCase_invoked (oracle : Oracle) (now : Nat) (s : PipelineState) :
    (flashCase oracle now s).2.2 = (inferBlock false oracle now s).2.2 := by
  simp only [flashCase]
  split <;> rfl

lemma flashCase_sampleCounter (oracle : Oracle) (now : Nat) (s : PipelineState) :
    (flashCase oracle now s).1.sampleCounter
      = (inferBlock false oracle now s).1.sampleCounter := by
  simp only [flashCase]
  split <;> rfl

lemma idleCase_animState_fields (now : Nat) (s : PipelineState) :
    (if ANIM_INTERVAL_MS ≤ usub32 now s.lastIdleAnim then
        { s with lastIdleAnim := now } else s).sampleCount = s.sampleCount ∧
    (if ANIM_INTERVAL_MS ≤ usub32 now s.lastIdleAnim then
        { s with lastIdleAnim := now } else s).sampleCounter = s.sampleCounter := by
  split <;> exact ⟨rfl, rfl⟩

lemma idleCase_invoked_iff (oracle : Oracle) (now : Nat) (s : PipelineState) :
    (idleCase oracle now s).2.2 = true ↔
      WINDOW_SAMPLES ≤ s.sampleCount ∧ HOP_SAMPLES ≤ s.sampleCounter := by
  simp only [idleCase]
  split
  · exact inferBlock_invoked_iff true oracle now _
  · exact inferBlock_invoked_iff true oracle now _

lemma idleCase_sampleCounter_triggered (oracle : Oracle) (now : Nat) (s : PipelineState)
    (htrig : WINDOW_SAMPLES ≤ s.sampleCount ∧ HOP_SAMPLES ≤ s.sampleCounter) :
    (idleCase oracle now s).1.sampleCounter = s.sampleCounter - HOP_SAMPLES := by
  simp only [idleCase]
  split
  · exact inferBlock_sampleCounter_triggered true oracle now _ htrig
  · exact inferBlock_sampleCounter_triggered true oracle now _ htrig

/-! ## The materialized frame -/

lemma flatten_getD_uniform {C : Nat} :
    ∀ (L : List (List ℚ)), (∀ l ∈ L, l.length = C) →
    ∀ i j, i < L.length → j < C →
    L.flatten.getD (i * C + j) 0 = (L.getD i []).getD j 0 := by
  intro L
  induction L with
  | nil => intro _ i j hi _; simp at hi
  | cons hd tl ih =>
      intro hlen i j hi hj
      have hhd : hd.length = C := hlen hd (List.mem_cons_self hd tl)
      cases i with
      | zero =>
          rw [List.flatten_cons]
          have hj' : 0 * C + j < hd.length := by omega
          rw [List.getD_append _ _ _ _ hj']
          simp
      | succ i' =>
          rw [List.flatten_cons]
          have h1 : C ≤ (i' + 1) * C := Nat.le_mul_of_pos_left C (Nat.succ_pos i')
          have hge : hd.length ≤ (i' + 1) * C + j := by omega
          rw [List.getD_append_right _ _ _ _ hge]
          have hexp : (i' + 1) * C = i' * C + C := Nat.succ_mul i' C
          have hidx : (i' + 1) * C + j - hd.length = i' * C + j := by omega
          rw [hidx]
          have htl := ih (fun l hl => hlen l (List.mem_cons_of_mem _ hl)) i' j
            (by simpa using hi) hj
          simpa using htl

lemma map_range_getD {α : Type} (d : α) (f : Nat → α) (n i : Nat) (hi : i < n) :
    ((List.range n).map f).getD i d = f i := by
  rw [List.getD_eq_getElem _ _ (by simpa using hi)]
  simp

lemma buildSignal_length (s : PipelineState) :
    (buildSignal s).length = WINDOW_SAMPLES * AXIS_COUNT := by
  unfold buildSignal
  rw [List.length_flatten, List.map_map]
  have hmap : (List.map (List.length ∘ fun k =>
      (List.range AXIS_COUNT).map fun j =>
        (s.imuBuffer.getD ((s.bufIndex + k) % WINDOW_SAMPLES) []).getD j 0)
      (List.range WINDOW_SAMPLES))
      = List.replicate WINDOW_SAMPLES AXIS_COUNT := by
    rw [List.eq_replicate_iff]
    refine ⟨by simp, ?_⟩
    intro b hb
    obtain ⟨a, -, rfl⟩ := List.mem_map.mp hb
    simp [Function.comp]
  rw [hmap, List.sum_replicate, smul_eq_mul]

lemma buildSignal_getD (s : PipelineState) (i j : Nat)
    (hi : i < WINDOW_SAMPLES) (hj : j < AXIS_COUNT) :
    (buildSignal s).getD (i * AXIS_COUNT + j) 0
      = (s.imuBuffer.getD ((s.bufIndex + i) % WINDOW_SAMPLES) []).getD j 0 := by
  have hlen : ∀ l ∈ (List.range WINDOW_SAMPLES).map (fun k =>
      (List.range AXIS_COUNT).map fun j' =>
        (s.imuBuffer.getD ((s.bufIndex + k) % WINDOW_SAMPLES) []).getD j' 0),
      l.length = AXIS_COUNT := by
    intro l hl
    obtain ⟨a, -, rfl⟩ := List.mem_map.mp hl
    simp
  have hiL : i < ((List.range WINDOW_SAMPLES).map (fun k =>
      (List.range AXIS_COUNT).map fun j' =>
        (s.imuBuffer.getD ((s.bufIndex + k) % WINDOW_SAMPLES) []).getD j' 0)).length := by
    simpa using hi
  have h := flatten_getD_uniform _ hlen i j hiL hj
  unfold buildSignal
  rw [h, map_range_getD _ _ WINDOW_SAMPLES i hi]
  rw [map_range_getD _ _ AXIS_COUNT j hj]

lemma inferBlock_buffer_pres (b : Bool) (oracle : Oracle) (now : Nat) (s : PipelineState) :
    (inferBlock b oracle now s).1.imuBuffer = s.imuBuffer ∧
    (inferBlock b oracle now s).1.bufIndex = s.bufIndex ∧
    (inferBlock b oracle now s).1.sampleCount = s.sampleCount := by
  by_cases htrig : WINDOW_SAMPLES ≤ s.sampleCount ∧ HOP_SAMPLES ≤ s.sampleCounter
  · by_cases hacc : AcceptCond (runInference oracle (consumeHop s))
        (accelAboveThreshold (consumeHop s))
    · obtain ⟨-, -, -, -, -, -, h7, h8, h9, -, -⟩ :=
        inferBlock_accept b oracle now s htrig hacc
      exact ⟨h8, h9, h7⟩
    · rw [inferBlock_reject b oracle now s htrig hacc]
      exact ⟨rfl, rfl, rfl⟩
  · rw [inferBlock_not_triggered b oracle now s htrig]
    exact ⟨rfl, rfl, rfl⟩

/-! ## Concrete fixtures used by the witnesses and counterexamples -/

/-- A classifier oracle that always answers with confidence 9/10 on label 4
(a non-idle stroke category). -/
def oracleHigh : Oracle := fun _ => some [0, 0, 0, 0, 9/10, 1/20]

/-- A classifier oracle whose feature extraction / inference always fails. -/
def failOracle : Oracle := fun _ => none

/-- A 1 g acceleration reading, below the 2 g plausibility threshold. -/
def accelLow : Option (ℚ × ℚ × ℚ) := some (1, 0, 0)

/-- A full-window `STATE_MAIN` state at time 1000 with one hard impact in
the buffer, ready to trigger and accept a classification. -/
def csAccept : PipelineState :=
  { initState 1000 with
    sampleCount := WINDOW_SAMPLES
    sampleCounter := HOP_SAMPLES
    imuBuffer := (initState 1000).imuBuffer.set 0 [30, 0, 0, 0, 0, 0] }

/-- The same ready-to-accept state already in `STATE_FLASH`. -/
def csFlash : PipelineState := { csAccept with currentState := State.STATE_FLASH }

/-- A ready-to-accept `STATE_MAIN` state whose last accepted stroke is a
full idle timeout in the past (at time 20000). -/
def csMainStale : PipelineState :=
  { csAccept with
    lastIMUread := 20000
    lastDisplay := 20000
    lastIdleAnim := 20000
    lastStrokeTime := 0 }

/-- A state with a non-zero buffer row, used to show that a missing sensor
reading overwrites real data with zeros. -/
def csNonzero : PipelineState :=
  { initState 0 with imuBuffer := List.replicate WINDOW_SAMPLES [1, 1, 1, 1, 1, 1] }

/-! ## The claims -/

/-- C1: with a full window and a due hop, the classification block accepts
an event — bumping the per-category counter and the stroke total (as the
`uint16_t` counters of the source, i.e. modulo `2^16`) and entering
`STATE_FLASH` — exactly when the classifier's confidence is strictly above
`CONF_THRESH`, its label index differs from the idle label index, and the
plausibility gate passes on the same window; if any conjunct fails, no
counter changes, no flash draw is emitted, and the state and flash timer
are untouched. -/
theorem decision_gate_conjunctive (oracle : Oracle) (now : Nat) (s : PipelineState)
    (hcnt : WINDOW_SAMPLES ≤ s.sampleCount) (hhop : HOP_SAMPLES ≤ s.sampleCounter) :
    (AcceptCond (runInference oracle (consumeHop s)) (accelAboveThreshold (consumeHop s)) →
      (inferBlock true oracle now s).1.totalStrokes = (s.totalStrokes + 1) % 2^16 ∧
      categoryCount (inferBlock true oracle now s).1
          (runInference oracle (consumeHop s)).index
        = (categoryCount s (runInference oracle (consumeHop s)).index + 1) % 2^16 ∧
      (inferBlock true oracle now s).1.currentState = State.STATE_FLASH) ∧
    (¬ AcceptCond (runInference oracle (consumeHop s)) (accelAboveThreshold (consumeHop s)) →
      (inferBlock true oracle now s).1.totalStrokes = s.totalStrokes ∧
      (∀ k, categoryCount (inferBlock true oracle now s).1 k = categoryCount s k) ∧
      (inferBlock true oracle now s).1.currentState = s.currentState ∧
      (inferBlock true oracle now s).1.flashStart = s.flashStart ∧
      (inferBlock true oracle now s).2.1 = []) := by
  constructor
  · intro hacc
    obtain ⟨h1, h2, h3, -, -, -, -, -, -, -, -⟩ :=
      inferBlock_accept true oracle now s ⟨hcnt, hhop⟩ hacc
    refine ⟨h1, h2, ?_⟩
    simpa using h3
  · intro hrej
    rw [inferBlock_reject true oracle now s ⟨hcnt, hhop⟩ hrej]
    exact ⟨rfl, categoryCount_consumeHop s, rfl, rfl, rfl⟩

theorem decision_gate_conjunctive_witness :
    (WINDOW_SAMPLES ≤ csAccept.sampleCount ∧ HOP_SAMPLES ≤ csAccept.sampleCounter ∧
      AcceptCond (runInference oracleHigh (consumeHop csAccept))
        (accelAboveThreshold (consumeHop csAccept))) ∧
    (inferBlock true oracleHigh 1000 csAccept).1.totalStrokes
      = (csAccept.totalStrokes + 1) % 2^16 :=
  ⟨of_decide_eq_true (by with_unfolding_all rfl),
   (((decision_gate_conjunctive oracleHigh 1000 csAccept
       (of_decide_eq_true (by with_unfolding_all rfl))
       (of_decide_eq_true (by with_unfolding_all rfl))).1)
     (of_decide_eq_true (by with_unfolding_all rfl))).1⟩

/-- C2: in no state of the `loop()` switch is `runInference` invoked while
the filled counter `sampleCount` (after the tick's sampling step) is below
`WINDOW_SAMPLES`: every invocation implies the window had completed its
first full fill. -/
theorem classifier_needs_full_window (oracle : Oracle) (accel gyro : Option (ℚ × ℚ × ℚ))
    (now : Nat) (s : PipelineState)
    (hinv : (loopStep oracle accel gyro now s).2.2 = true) :
    WINDOW_SAMPLES ≤ (readPhase accel gyro now s).sampleCount := by
  cases hc : (readPhase accel gyro now s).currentState with
  | STATE_OPENING =>
      simp only [loopStep, hc] at hinv
      exact absurd hinv (by simp)
  | STATE_MAIN =>
      simp only [loopStep, hc] at hinv
      rw [mainCase_invoked] at hinv
      exact ((inferBlock_invoked_iff _ _ _ _).mp hinv).1
  | STATE_FLASH =>
      simp only [loopStep, hc] at hinv
      rw [flashCase_invoked] at hinv
      exact ((inferBlock_invoked_iff _ _ _ _).mp hinv).1
  | STATE_IDLE =>
      simp only [loopStep, hc] at hinv
      exact ((idleCase_invoked_iff _ _ _).mp hinv).1

theorem classifier_needs_full_window_witness :
    ((loopStep oracleHigh none none 1000 csAccept).2.2 = true) ∧
    WINDOW_SAMPLES ≤ (readPhase none none 1000 csAccept).sampleCount :=
  ⟨of_decide_eq_true (by with_unfolding_all rfl),
   classifier_needs_full_window oracleHigh none none 1000 csAccept
     (of_decide_eq_true (by with_unfolding_all rfl))⟩

/-- C3: whenever an iteration of `loop()` invokes the classifier (in any
state), the hop counter held at least `HOP_SAMPLES` ticks and ends the
iteration at exactly its pre-trigger value minus `HOP_SAMPLES` — it is
subtracted, never zeroed or clamped, so surplus ticks carry over. -/
theorem hop_counter_subtracts (oracle : Oracle) (accel gyro : Option (ℚ × ℚ × ℚ))
    (now : Nat) (s : PipelineState)
    (hinv : (loopStep oracle accel gyro now s).2.2 = true) :
    HOP_SAMPLES ≤ (readPhase accel gyro now s).sampleCounter ∧
    (loopStep oracle accel gyro now s).1.sampleCounter
      = (readPhase accel gyro now s).sampleCounter - HOP_SAMPLES := by
  cases hc : (readPhase accel gyro now s).currentState with
  | STATE_OPENING =>
      simp only [loopStep, hc] at hinv
      exact absurd hinv (by simp)
  | STATE_MAIN =>
      simp only [loopStep, hc] at hinv ⊢
      rw [mainCase_invoked] at hinv
      have htrig := (inferBlock_invoked_iff _ _ _ _).mp hinv
      refine ⟨htrig.2, ?_⟩
      rw [mainCase_sampleCounter]
      exact inferBlock_sampleCounter_triggered _ _ _ _ htrig
  | STATE_FLASH =>
      simp only [loopStep, hc] at hinv ⊢
      rw [flashCase_invoked] at hinv
      have htrig := (inferBlock_invoked_iff _ _ _ _).mp hinv
      refine ⟨htrig.2, ?_⟩
      rw [flashCase_sampleCounter]
      exact inferBlock_sampleCounter_triggered _ _ _ _ htrig
  | STATE_IDLE =>
      simp only [loopStep, hc] at hinv ⊢
      have htrig := (idleCase_invoked_iff _ _ _).mp hinv
      exact ⟨htrig.2, idleCase_sampleCounter_triggered _ _ _ htrig⟩

theorem hop_counter_subtracts_witness :
    ((loopStep oracleHigh none none 1000 csAccept).2.2 = true) ∧
    (loopStep oracleHigh none none 1000 csAccept).1.sampleCounter
      = (readPhase none none 1000 csAccept).sampleCounter - HOP_SAMPLES :=
  ⟨of_decide_eq_true (by with_unfolding_all rfl),
   (hop_counter_subtracts oracleHigh none none 1000 csAccept
     (of_decide_eq_true (by with_unfolding_all rfl))).2⟩

/-- C4: with a full window, the frame fed to the classifier has exactly
`WINDOW_SAMPLES * AXIS_COUNT` scalars, its sample `i`, channel `j` entry is
row `(bufIndex + i) % WINDOW_SAMPLES` of the ring buffer — oldest-first,
starting at the write cursor, whose slot is the next to overwrite and hence
the oldest — and running the classification block leaves the ring buffer,
the write cursor and the filled counter untouched. -/
theorem frame_oldest_first_pure (s : PipelineState)
    (hfull : s.sampleCount = WINDOW_SAMPLES) :
    (buildSignal s).length = WINDOW_SAMPLES * AXIS_COUNT ∧
    (∀ i j, i < WINDOW_SAMPLES → j < AXIS_COUNT →
      (buildSignal s).getD (i * AXIS_COUNT + j) 0
        = (s.imuBuffer.getD ((s.bufIndex + i) % WINDOW_SAMPLES) []).getD j 0) ∧
    (∀ b oracle now,
      (inferBlock b oracle now s).1.imuBuffer = s.imuBuffer ∧
      (inferBlock b oracle now s).1.bufIndex = s.bufIndex ∧
      (inferBlock b oracle now s).1.sampleCount = s.sampleCount) := by
  refine ⟨buildSignal_length s, ?_, ?_⟩
  · intro i j hi hj
    exact buildSignal_getD s i j hi hj
  · intro b oracle now
    exact inferBlock_buffer_pres b oracle now s

theorem frame_oldest_first_pure_witness :
    csAccept.sampleCount = WINDOW_SAMPLES ∧
    (buildSignal csAccept).length = WINDOW_SAMPLES * AXIS_COUNT :=
  ⟨rfl, (frame_oldest_first_pure csAccept rfl).1⟩

/-- C5: the plausibility gate returns `true` exactly when some row of the
window has squared acceleration magnitude `ax*ax + ay*ay + az*az` strictly
above the squared threshold `(ACCEL_THRESH_G * CONVERT_G_TO_MS2)` squared
(2 g converted to m/s², squared once before the loop — the comparison is on
squared magnitudes, with no per-sample square root), and `false` when no
row exceeds it. -/
theorem accel_gate_iff_exists (s : PipelineState) :
    accelAboveThreshold s = true ↔
      ∃ i, i < WINDOW_SAMPLES ∧
        ((s.imuBuffer.getD i []).getD 0 0) * ((s.imuBuffer.getD i []).getD 0 0)
          + ((s.imuBuffer.getD i []).getD 1 0) * ((s.imuBuffer.getD i []).getD 1 0)
          + ((s.imuBuffer.getD i []).getD 2 0) * ((s.imuBuffer.getD i []).getD 2 0)
          > (ACCEL_THRESH_G * CONVERT_G_TO_MS2) * (ACCEL_THRESH_G * CONVERT_G_TO_MS2) := by
  unfold accelAboveThreshold
  simp only [List.any_eq_true, List.mem_range, decide_eq_true_eq]

/-- C6 counterexample: when the classifier fails, `runInference` returns
`{0, 0.0f}` — index 0 with confidence 0. Index 0 is not a reserved
non-label index: it is strictly below the idle label index, i.e. the
ordinary label index of the first stroke category (the one whose counter
the acceptance switch bumps for `case 0`). -/
theorem failure_sentinel_is_label_zero :
    runInference failOracle (initState 0) = ⟨0, 0⟩ ∧
    (runInference failOracle (initState 0)).index < IDLE_LABEL_INDEX ∧
    (bumpCounters (initState 0) (runInference failOracle (initState 0)).index).countBHdrive
      = 1 :=
  of_decide_eq_true (by with_unfolding_all rfl)

/-- C6 amended: on a `signal_from_buffer` / `run_classifier` error,
`runInference` returns the sentinel `{0, 0.0f}` — confidence 0 and label
index 0, an ordinary stroke-label index rather than a reserved non-label
one; because its confidence 0 is not strictly above `CONF_THRESH`, the
decision gate rejects it exactly like an idle or low-confidence result: no
counter changes, no flash draw, no presentation-state or flash-timer
change, and no error propagates. -/
theorem classifier_failure_rejected (b : Bool) (oracle : Oracle) (now : Nat)
    (s : PipelineState)
    (hcnt : WINDOW_SAMPLES ≤ s.sampleCount) (hhop : HOP_SAMPLES ≤ s.sampleCounter)
    (hfail : oracle (buildSignal (consumeHop s)) = none) :
    runInference oracle (consumeHop s) = ⟨0, 0⟩ ∧
    (inferBlock b oracle now s).1.totalStrokes = s.totalStrokes ∧
    (∀ k, categoryCount (inferBlock b oracle now s).1 k = categoryCount s k) ∧
    (inferBlock b oracle now s).1.currentState = s.currentState ∧
    (inferBlock b oracle now s).1.flashStart = s.flashStart ∧
    (inferBlock b oracle now s).2.1 = [] := by
  have hri : runInference oracle (consumeHop s) = ⟨0, 0⟩ := by
    unfold runInference
    rw [hfail]
  have hrej : ¬ AcceptCond (runInference oracle (consumeHop s))
      (accelAboveThreshold (consumeHop s)) := by
    rw [hri]
    intro h
    exact absurd h.1 (by norm_num [CONF_THRESH])
  rw [inferBlock_reject b oracle now s ⟨hcnt, hhop⟩ hrej]
  exact ⟨hri, rfl, categoryCount_consumeHop s, rfl, rfl, rfl⟩

theorem classifier_failure_rejected_witness :
    (WINDOW_SAMPLES ≤ csAccept.sampleCount ∧ HOP_SAMPLES ≤ csAccept.sampleCounter ∧
      failOracle (buildSignal (consumeHop csAccept)) = none) ∧
    (inferBlock true failOracle 1000 csAccept).1.totalStrokes = csAccept.totalStrokes :=
  ⟨⟨of_decide_eq_true (by with_unfolding_all rfl),
    of_decide_eq_true (by with_unfolding_all rfl), rfl⟩,
   (classifier_failure_rejected true failOracle 1000 csAccept
     (of_decide_eq_true (by with_unfolding_all rfl))
     (of_decide_eq_true (by with_unfolding_all rfl)) rfl).2.1⟩

/-- C7 counterexample: at a due sampling tick with neither an acceleration
nor a gyroscope reading available, the iteration of `loop()` still
advances: the write cursor, filled counter and hop counter all increment,
and an all-zero row is written over the previous (non-zero) contents of
the slot. -/
theorem missing_reading_still_advances :
    (loopStep failOracle none none 20 csNonzero).1.bufIndex = 1 ∧
    (loopStep failOracle none none 20 csNonzero).1.sampleCount = 1 ∧
    (loopStep failOracle none none 20 csNonzero).1.sampleCounter = 1 ∧
    (loopStep failOracle none none 20 csNonzero).1.imuBuffer.getD 0 [] = [0, 0, 0, 0, 0, 0] ∧
    csNonzero.imuBuffer.getD 0 [] = [1, 1, 1, 1, 1, 1] :=
  of_decide_eq_true (by with_unfolding_all rfl)

/-- C7 amended: on a due sampling tick where the sensor has no reading,
`readIMU` still runs: it writes an all-zero row (the zero-initialized
channel values) over the slot at the write cursor, advances the cursor
modulo the window length, increments the filled counter up to
`WINDOW_SAMPLES`, and increments the hop counter. -/
theorem missing_reading_writes_zeros (now : Nat) (s : PipelineState)
    (hdue : SAMPLE_INTERVAL_MS ≤ usub32 now s.lastIMUread) :
    (readPhase none none now s).imuBuffer
      = s.imuBuffer.set s.bufIndex [0, 0, 0, 0, 0, 0] ∧
    (readPhase none none now s).bufIndex = (s.bufIndex + 1) % WINDOW_SAMPLES ∧
    (readPhase none none now s).sampleCount
      = (if s.sampleCount < WINDOW_SAMPLES then s.sampleCount + 1 else s.sampleCount) ∧
    (readPhase none none now s).sampleCounter = (s.sampleCounter + 1) % 2^16 := by
  unfold readPhase
  rw [if_pos hdue]
  unfold readIMU
  refine ⟨?_, rfl, rfl, rfl⟩
  norm_num

theorem missing_reading_writes_zeros_witness :
    (SAMPLE_INTERVAL_MS ≤ usub32 20 csNonzero.lastIMUread) ∧
    (readPhase none none 20 csNonzero).bufIndex = (csNonzero.bufIndex + 1) % WINDOW_SAMPLES :=
  ⟨of_decide_eq_true (by with_unfolding_all rfl),
   (missing_reading_writes_zeros 20 csNonzero
     (of_decide_eq_true (by with_unfolding_all rfl))).2.1⟩

/-- C8 counterexample: from the empty post-`setup()` `STATE_MAIN` state,
feeding 13 below-2g samples (one per 20 ms tick, classifier primed to
answer 0.9 on a non-idle label) produces no classifier call at all — the
window guard `sampleCount >= WINDOW_SAMPLES` fails with 13 < 25 — refuting
the claimed classifier call; the counters stay 0 and the state stays
`STATE_MAIN`, but by the window guard, not the plausibility gate. -/
theorem thirteen_samples_no_classifier_call :
    (runTicks oracleHigh accelLow none 0 13 (initState 0)).2 = 0 ∧
    (runTicks oracleHigh accelLow none 0 13 (initState 0)).1.sampleCount = 13 ∧
    (runTicks oracleHigh accelLow none 0 13 (initState 0)).1.totalStrokes = 0 ∧
    (runTicks oracleHigh accelLow none 0 13 (initState 0)).1.currentState
      = State.STATE_MAIN :=
  of_decide_eq_true (by with_unfolding_all rfl)

/-- C8 amended: with W=25, hop=13, thresholds 0.50 and 2 g, feeding
below-2g samples from the empty `STATE_MAIN` state, no classifier call
occurs during the first 13 samples (the window is not yet full); at sample
25 exactly one classifier call occurs, and even though the classifier
answers confidence 0.9 on a non-idle label, the plausibility gate rejects,
so no counter increments and the state remains `STATE_MAIN`. -/
theorem twentyfive_samples_plausibility_rejects :
    (runTicks oracleHigh accelLow none 0 25 (initState 0)).2 = 1 ∧
    (runTicks oracleHigh accelLow none 0 25 (initState 0)).1.totalStrokes = 0 ∧
    (runTicks oracleHigh accelLow none 0 25 (initState 0)).1.currentState
      = State.STATE_MAIN :=
  of_decide_eq_true (by with_unfolding_all rfl)

/-- C9: an accepted classification while `currentState` is already
`STATE_FLASH` restarts the flash timer (`flashStart = now`), bumps the
per-category counter and the stroke total, immediately emits a new flash
draw for the accepted category, and ends the iteration still in
`STATE_FLASH` with `lastStrokeTime` untouched — the `FLASH → MAIN` exit
branch (the only path through `STATE_MAIN`) does not run, because the
flash timeout check sees the just-reset timer. -/
theorem flash_reentry_restarts_timer (oracle : Oracle) (accel gyro : Option (ℚ × ℚ × ℚ))
    (now : Nat) (s : PipelineState)
    (hst : s.currentState = State.STATE_FLASH)
    (hcnt : WINDOW_SAMPLES ≤ (readPhase accel gyro now s).sampleCount)
    (hhop : HOP_SAMPLES ≤ (readPhase accel gyro now s).sampleCounter)
    (hacc : AcceptCond (runInference oracle (consumeHop (readPhase accel gyro now s)))
        (accelAboveThreshold (consumeHop (readPhase accel gyro now s)))) :
    (loopStep oracle accel gyro now s).1.currentState = State.STATE_FLASH ∧
    (loopStep oracle accel gyro now s).1.flashStart = now ∧
    (loopStep oracle accel gyro now s).1.totalStrokes = (s.totalStrokes + 1) % 2^16 ∧
    categoryCount (loopStep oracle accel gyro now s).1
        (runInference oracle (consumeHop (readPhase accel gyro now s))).index
      = (categoryCount s
          (runInference oracle (consumeHop (readPhase accel gyro now s))).index + 1) % 2^16 ∧
    (loopStep oracle accel gyro now s).1.lastStrokeTime = s.lastStrokeTime ∧
    (∃ m, (loopStep oracle accel gyro now s).2.1
      = [DrawCmd.flash
          (runInference oracle (consumeHop (readPhase accel gyro now s))).index m]) := by
  have hps := readPhase_pres accel gyro now s
  obtain ⟨h1, h2, h3, h4, h5, h6, h7, h8, h9, h10, h11⟩ :=
    inferBlock_accept false oracle now (readPhase accel gyro now s) ⟨hcnt, hhop⟩ hacc
  have hc : (readPhase accel gyro now s).currentState = State.STATE_FLASH :=
    hps.1.trans hst
  simp only [loopStep, hc]
  simp only [flashCase]
  rw [if_neg (by rw [h4, usub32_self]; norm_num [FLASH_DURATION_MS])]
  exact ⟨h3.trans hc, h4, h1.trans (by rw [hps.2.1]),
    h2.trans (by rw [hps.2.2.2.2.2.2.2]), h6.trans hps.2.2.1, ⟨_, h10⟩⟩

theorem flash_reentry_restarts_timer_witness :
    (csFlash.currentState = State.STATE_FLASH ∧
      WINDOW_SAMPLES ≤ (readPhase none none 1000 csFlash).sampleCount ∧
      HOP_SAMPLES ≤ (readPhase none none 1000 csFlash).sampleCounter ∧
      AcceptCond (runInference oracleHigh (consumeHop (readPhase none none 1000 csFlash)))
        (accelAboveThreshold (consumeHop (readPhase none none 1000 csFlash)))) ∧
    (loopStep oracleHigh none none 1000 csFlash).1.currentState = State.STATE_FLASH :=
  ⟨of_decide_eq_true (by with_unfolding_all rfl),
   (flash_reentry_restarts_timer oracleHigh none none 1000 csFlash
     (of_decide_eq_true (by with_unfolding_all rfl))
     (of_decide_eq_true (by with_unfolding_all rfl))
     (of_decide_eq_true (by with_unfolding_all rfl))
     (of_decide_eq_true (by with_unfolding_all rfl))).1⟩

/-- C10: in `STATE_MAIN`, when a classification is accepted in an iteration
whose `now - lastStrokeTime` already reaches `IDLE_TIMEOUT_MS`, the
acceptance branch does set `STATE_FLASH` (and bumps the counters and sets
`flashStart = now`), but the idle-timeout check that follows inside the
same `STATE_MAIN` case — and which reads `lastStrokeTime`, not updated on
acceptance — overrides the state, so the iteration ends in `STATE_IDLE`
rather than `STATE_FLASH`. -/
theorem accept_overridden_by_idle_timeout (oracle : Oracle)
    (accel gyro : Option (ℚ × ℚ × ℚ)) (now : Nat) (s : PipelineState)
    (hst : s.currentState = State.STATE_MAIN)
    (hcnt : WINDOW_SAMPLES ≤ (readPhase accel gyro now s).sampleCount)
    (hhop : HOP_SAMPLES ≤ (readPhase accel gyro now s).sampleCounter)
    (hacc : AcceptCond (runInference oracle (consumeHop (readPhase accel gyro now s)))
        (accelAboveThreshold (consumeHop (readPhase accel gyro now s))))
    (hidle : IDLE_TIMEOUT_MS ≤ usub32 now s.lastStrokeTime) :
    (inferBlock true oracle now (readPhase accel gyro now s)).1.currentState
      = State.STATE_FLASH ∧
    (loopStep oracle accel gyro now s).1.currentState = State.STATE_IDLE ∧
    (loopStep oracle accel gyro now s).1.totalStrokes = (s.totalStrokes + 1) % 2^16 ∧
    (loopStep oracle accel gyro now s).1.flashStart = now ∧
    (loopStep oracle accel gyro now s).1.lastIdleAnim = now := by
  have hps := readPhase_pres accel gyro now s
  obtain ⟨h1, h2, h3, h4, h5, h6, h7, h8, h9, h10, h11⟩ :=
    inferBlock_accept true oracle now (readPhase accel gyro now s) ⟨hcnt, hhop⟩ hacc
  have hc : (readPhase accel gyro now s).currentState = State.STATE_MAIN :=
    hps.1.trans hst
  refine ⟨by rw [h3]; rfl, ?_⟩
  simp only [loopStep, hc]
  simp only [mainCase]
  have hidle2 : IDLE_TIMEOUT_MS ≤
      usub32 now (inferBlock true oracle now (readPhase accel gyro now s)).1.lastStrokeTime := by
    rw [h6, hps.2.2.1]
    exact hidle
  rw [if_pos hidle2]
  split
  · exact ⟨rfl, h1.trans (by rw [hps.2.1]), h4, rfl⟩
  · exact ⟨rfl, h1.trans (by rw [hps.2.1]), h4, rfl⟩

theorem accept_overridden_by_idle_timeout_witness :
    (csMainStale.currentState = State.STATE_MAIN ∧
      WINDOW_SAMPLES ≤ (readPhase none none 20000 csMainStale).sampleCount ∧
      HOP_SAMPLES ≤ (readPhase none none 20000 csMainStale).sampleCounter ∧
      AcceptCond
        (runInference oracleHigh (consumeHop (readPhase none none 20000 csMainStale)))
        (accelAboveThreshold (consumeHop (readPhase none none 20000 csMainStale))) ∧
      IDLE_TIMEOUT_MS ≤ usub32 20000 csMainStale.lastStrokeTime) ∧
    (loopStep oracleHigh none none 20000 csMainStale).1.currentState = State.STATE_IDLE :=
  ⟨of_decide_eq_true (by with_unfolding_all rfl),
   (accept_overridden_by_idle_timeout oracleHigh none none 20000 csMainStale
     (of_decide_eq_true (by with_unfolding_all rfl))
     (of_decide_eq_true (by with_unfolding_all rfl))
     (of_decide_eq_true (by with_unfolding_all rfl))
     (of_decide_eq_true (by with_unfolding_all rfl))
     (of_decide_eq_true (by with_unfolding_all rfl))).2.1⟩
